import Mathlib

/-!
Shallow embedding of the archive extraction and flattening engine of
`extraction-tool.py` (a Python bulk archive extractor), together with
theorems settling the specification claims about it.

Paths are modelled POSIX-style as a flag (absolute or not) plus a list of
path segments.  The filesystem seen by existence checks is modelled as the
list of paths currently present.  External processes are modelled by
oracles (their return code, captured output and the tree of entries they
left in the scratch directory are inputs to the embedded functions).
-/

set_option autoImplicit false

deriving instance DecidableEq for Except

namespace ExtractionTool

/-- Decimal digit string of a natural number, built with explicit fuel so
that it reduces structurally.  Models Python's `str(i)` for the rename
counter in `unique_file`. -/
def natReprAux : Nat → Nat → List Char
  | _, 0 => []
  | 0, _ => []
  | fuel+1, m => natReprAux fuel (m / 10) ++ [Nat.digitChar (m % 10)]

/-- Models Python `str(n)` on a natural number. -/
def natRepr (n : Nat) : String :=
  if n = 0 then "0" else ⟨natReprAux n n⟩

/-- Models Python `str(n)` on an integer (process return codes may be
negative). -/
def intRepr : Int → String
  | .ofNat n => natRepr n
  | .negSucc n => "-" ++ natRepr (n + 1)

/-- Reads a decimal digit string back as a number; used only to prove that
`natRepr` is injective. -/
def unval (l : List Char) : Nat :=
  l.foldl (fun a c => a * 10 + (c.toNat - 48)) 0

/-- Models Python `str.lower()` (ASCII is all that archive suffixes need). -/
def lowerStr (s : String) : String :=
  ⟨s.data.map Char.toLower⟩

/-- Models Python `str.endswith`. -/
def strEndsWith (s t : String) : Bool :=
  t.data.isSuffixOf s.data

/-- Splits a character list at `'/'` characters, keeping empty chunks,
like Python `str.split('/')`. -/
def splitSlashAux : List Char → List Char → List String
  | [], acc => [⟨acc.reverse⟩]
  | c :: rest, acc =>
    if c = '/' then ⟨acc.reverse⟩ :: splitSlashAux rest []
    else splitSlashAux rest (c :: acc)

def splitSlash (cs : List Char) : List String :=
  splitSlashAux cs []

/-- Index of the last occurrence of a character, like Python `str.rfind`. -/
def lastIdxOf (c : Char) : List Char → Option Nat
  | [] => none
  | x :: xs =>
    match lastIdxOf c xs with
    | some k => some (k + 1)
    | none => if x = c then some 0 else none

/-- Models `pathlib`'s split of a file name into `stem` and `suffix`
(CPython: the extension starts at the last `'.'` provided it is neither the
first nor past the last character of the name). -/
def pyStemSuffix (name : String) : String × String :=
  match lastIdxOf '.' name.data with
  | some i =>
    if 0 < i ∧ i < name.data.length - 1 then (⟨name.data.take i⟩, ⟨name.data.drop i⟩)
    else (name, "")
  | none => (name, "")

/-- A `pathlib.Path`: whether it is absolute, and its segments.  Parsing
(below) never produces `""` or `"."` segments, matching `pathlib`'s
normalization; `".."` segments are kept, as `pathlib` keeps them. -/
structure PyPath where
  absolute : Bool
  segs : List String
  deriving DecidableEq, Repr

/-- Models `pathlib.Path(s)` for a POSIX path string. -/
def parsePath (s : String) : PyPath :=
  { absolute := s.data.head? = some '/'
    segs := (splitSlash s.data).filter (fun t => t ≠ "" && t ≠ ".") }

/-- Models `PurePath.parts`: for an absolute path the root `"/"` is the
first part. -/
def pyParts (p : PyPath) : List String :=
  if p.absolute then "/" :: p.segs else p.segs

/-- Models `PurePath.name`: the final non-root component (`""` when there
is none). -/
def pyName (p : PyPath) : String :=
  (p.segs.getLast?).getD ""

/-- Models `PurePath.with_name`. -/
def withName (p : PyPath) (n : String) : PyPath :=
  ⟨p.absolute, p.segs.dropLast ++ [n]⟩

/-- Models `path.stem` (stem of the final component). -/
def pathStem (p : PyPath) : String := (pyStemSuffix (pyName p)).1

/-- Models `path.suffix` (extension of the final component). -/
def pathSuffix (p : PyPath) : String := (pyStemSuffix (pyName p)).2

/-- Models joining one `pathlib` argument onto a path: an absolute
argument discards everything before it (`PurePath.joinpath` semantics);
the empty string contributes nothing. -/
def joinSeg (p : PyPath) (s : String) : PyPath :=
  if s.data.head? = some '/' then parsePath s
  else if s = "" then p
  else ⟨p.absolute, p.segs ++ (splitSlash s.data).filter (fun t => t ≠ "" && t ≠ ".")⟩

/-- Models `base.joinpath(*parts)`. -/
def joinParts (p : PyPath) (parts : List String) : PyPath :=
  parts.foldl joinSeg p

/-- Lexical normalization of the segments of an absolute path: `".."` pops
the previous segment (and is a no-op at the root), `""` and `"."` vanish.
Together with `resolvePath` this models `Path.resolve()` on a filesystem
without symbolic links (`resolve(strict=False)` raises nothing on modern
Python, so the `except FileNotFoundError` branch in the source is inert). -/
def normSegs (segs : List String) : List String :=
  segs.foldl (fun acc s =>
    if s = "" ∨ s = "." then acc
    else if s = ".." then acc.dropLast
    else acc ++ [s]) []

/-- Models `Path.resolve()`: make the path absolute against the current
working directory `cwd` (given as its segments), then normalize. -/
def resolvePath (cwd : List String) (p : PyPath) : PyPath :=
  ⟨true, normSegs ((if p.absolute then [] else cwd) ++ p.segs)⟩

/-- The character list of `str(p)` for an absolute path: segments joined
by `'/'`. -/
def joinSlash : List String → List Char
  | [] => []
  | [s] => s.data
  | s :: s' :: rest => s.data ++ '/' :: joinSlash (s' :: rest)

/-- Models `str(p)` for a resolved (hence absolute) path. -/
def strOfResolved (p : PyPath) : String :=
  ⟨'/' :: joinSlash p.segs⟩

/-- Models Python `big.startswith(small)`. -/
def pyStartsWith (big small : String) : Prop :=
  small.data <+: big.data

instance (big small : String) : Decidable (pyStartsWith big small) :=
  inferInstanceAs (Decidable (small.data <+: big.data))

/-! ## PathSafety: `safe_member_target` -/

/-- Embeds `safe_member_target(base, member_name)`: drop `""`, `"."`, `".."`
parts of the member path, join the survivors onto `base` (an absolute part
such as the root `"/"` resets the join), then compare the canonical string
of the join against the canonical string of `base`; on mismatch fall back
to `base / Path(member_name).name`.  `cwd` is the current working
directory's segment list, used by `Path.resolve()` for relative paths. -/
def safe_member_target (cwd : List String) (base : PyPath) (member_name : String) : PyPath :=
  let parts := (pyParts (parsePath member_name)).filter
    (fun p => p ≠ "" && p ≠ "." && p ≠ "..")
  let target := if parts = [] then base else joinParts base parts
  let base_resolved := resolvePath cwd base
  let target_resolved := resolvePath cwd target
  if pyStartsWith (strOfResolved target_resolved) (strOfResolved base_resolved) then target
  else joinSeg base (pyName (parsePath member_name))

/-! ## NameResolver: `unique_file` -/

/-- The `i`-th rename candidate `path.with_name(f"{stem}_{i}{suffix}")`. -/
def suffixCandidate (p : PyPath) (i : Nat) : PyPath :=
  withName p (pathStem p ++ "_" ++ natRepr i ++ pathSuffix p)

/-- The `while True` loop of `unique_file`, with fuel.  `unique_file`
supplies fuel `fs.length + 1`, which is proved sufficient
(`uniqueGo_spec` / `exists_free_candidate`): the candidates are pairwise
distinct, so one of the first `fs.length + 1` of them is not on disk. -/
def uniqueGo (fs : List PyPath) (p : PyPath) : Nat → Nat → PyPath
  | i, 0 => suffixCandidate p i
  | i, fuel+1 =>
    let c := suffixCandidate p i
    if c ∈ fs then uniqueGo fs p (i + 1) fuel else c

/-- Embeds `unique_file(path)`.  The global `OVERWRITE_EXISTING` flag is the
`overwrite` parameter; `path.exists()` is membership in `fs`, the list of
paths currently on disk. -/
def unique_file (fs : List PyPath) (overwrite : Bool) (p : PyPath) : PyPath :=
  if overwrite = true ∨ p ∉ fs then p
  else uniqueGo fs p 1 (fs.length + 1)

/-! ## TreeFlattener: `merge_tree_flat` -/

/-- What one entry under the scratch tree is, as far as
`Path.is_dir()` (which follows symbolic links) and `shutil.move` care:
directories and symlinks to directories answer `is_dir()`; regular files,
symlinks to files and broken symlinks do not. -/
inductive FsKind where
  | dir
  | file
  | symlinkToDir
  | symlinkToFile
  deriving DecidableEq, Repr

def FsKind.isDirLike : FsKind → Bool
  | .dir | .symlinkToDir => true
  | .file | .symlinkToFile => false

/-- One entry produced by `src_root.rglob("*")`: its path relative to the
scratch root (as segments) and what kind of filesystem object it is. -/
structure Entry where
  rel : List String
  kind : FsKind
  deriving DecidableEq, Repr

/-- The paths created by `p.mkdir(parents=True, exist_ok=True)`: `p` and
all its ancestors. -/
def mkdirAll (p : PyPath) : List PyPath :=
  (List.range (p.segs.length + 1)).map (fun i => ⟨p.absolute, p.segs.take i⟩)

/-- The paths created by `p.parent.mkdir(parents=True, exist_ok=True)`. -/
def mkdirParent (p : PyPath) : List PyPath :=
  mkdirAll ⟨p.absolute, p.segs.dropLast⟩

/-- Target of an entry under the destination root: `dest_root / rel`. -/
def entryTarget (dest : PyPath) (e : Entry) : PyPath :=
  ⟨dest.absolute, dest.segs ++ e.rel⟩

/-- One iteration of the `merge_tree_flat` loop, threading the moved
counter and the filesystem.  Directory-like entries (including symlinks to
directories, which `is_dir()` follows) only create the mirrored directory;
every other entry — regular file, symlink to a file, broken symlink — is
moved through `unique_file` and counted. -/
def mergeStep (overwrite : Bool) (dest : PyPath) (st : Nat × List PyPath) (e : Entry) :
    Nat × List PyPath :=
  if e.kind.isDirLike then (st.1, st.2 ++ mkdirAll (entryTarget dest e))
  else
    let fs1 := st.2 ++ mkdirParent (entryTarget dest e)
    let final := unique_file fs1 overwrite (entryTarget dest e)
    (st.1 + 1, final :: fs1)

/-- Embeds `merge_tree_flat(src_root, dest_root)`.  `entries` is the sorted
`rglob` listing of the scratch tree; the result is the moved count and the
destination filesystem afterwards. -/
def merge_tree_flat (overwrite : Bool) (dest : PyPath) (fs : List PyPath)
    (entries : List Entry) : Nat × List PyPath :=
  entries.foldl (mergeStep overwrite dest) (0, fs)

/-! ## In-process tar extraction: `extract_tar_flat` -/

/-- Kind of a tar member as `tarfile` classifies it: `m.issym()`,
`m.islnk()`, `m.isdir()`, regular files that `tf.extractfile` can open, and
members for which `tf.extractfile` returns `None` or raises (devices,
fifos, …). -/
inductive TarKind where
  | regular
  | directory
  | symlink
  | hardlink
  | other
  deriving DecidableEq, Repr

structure TarMember where
  name : String
  kind : TarKind
  deriving DecidableEq, Repr

/-- One iteration of the member loop of `extract_tar_flat`. -/
def tarStep (cwd : List String) (overwrite : Bool) (dest : PyPath)
    (st : Nat × List PyPath) (m : TarMember) : Nat × List PyPath :=
  match m.kind with
  | .symlink => st
  | .hardlink => st
  | .directory => (st.1, st.2 ++ mkdirAll (safe_member_target cwd dest m.name))
  | .other => st
  | .regular =>
    let target := safe_member_target cwd dest m.name
    let fs1 := st.2 ++ mkdirParent target
    let final := unique_file fs1 overwrite target
    (st.1 + 1, final :: fs1)

/-- Embeds `extract_tar_flat(archive, dest)` from the member list onward
(the compression mode chosen from the filename is transparent to what gets
written).  Returns the written count and the destination filesystem. -/
def extract_tar_flat (cwd : List String) (overwrite : Bool) (dest : PyPath)
    (fs : List PyPath) (members : List TarMember) : Nat × List PyPath :=
  members.foldl (tarStep cwd overwrite dest) (0, fs)

/-! ## External-tool strategies -/

/-- A Python exception relevant to the strategy boundary: `BadZipFile`,
`tarfile.TarError`, or anything else. -/
inductive PyExn where
  | badZip
  | tarError (msg : String)
  | other (msg : String)
  deriving DecidableEq, Repr

/-- Result of `subprocess.run(..., stdout=PIPE, stderr=STDOUT)`. -/
structure ProcResult where
  returncode : Int
  stdout : String
  deriving DecidableEq, Repr

/-- Observable events of one external-tool strategy invocation, in order:
scratch directory creation, the tool run, the flatten, and the scratch
directory removal performed in the `finally` block. -/
inductive Ev where
  | mkdtemp
  | toolRun
  | flattened (n : Nat)
  | rmtree
  deriving DecidableEq, Repr

/-- What one strategy invocation produced: the value returned (or the
exception that escaped the `finally`), the ordered event trace, and the
destination filesystem afterwards. -/
abbrev CliResult := Except PyExn (Nat × Option String) × List Ev × List PyPath

/-- Embeds `extract_via_7z_cli`.  `runRes` is what `subprocess.run` did
(an exception, or a completed process); `scratch` is the `rglob` listing of
what the tool left in the scratch directory. -/
def extract_via_7z_cli (runRes : Except PyExn ProcResult) (scratch : List Entry)
    (overwrite : Bool) (dest : PyPath) (fs : List PyPath) : CliResult :=
  match runRes with
  | .error e => (.error e, [.mkdtemp, .rmtree], fs)
  | .ok proc =>
    if proc.returncode ≠ 0 then
      (.ok (0, some ("7z failed (code " ++ intRepr proc.returncode ++ "). Output:\n"
        ++ proc.stdout)), [.mkdtemp, .toolRun, .rmtree], fs)
    else
      let r := merge_tree_flat overwrite dest fs scratch
      (.ok (r.1, none), [.mkdtemp, .toolRun, .flattened r.1, .rmtree], r.2)

/-- Embeds `extract_via_bsdtar_cli`. -/
def extract_via_bsdtar_cli (runRes : Except PyExn ProcResult) (scratch : List Entry)
    (overwrite : Bool) (dest : PyPath) (fs : List PyPath) : CliResult :=
  match runRes with
  | .error e => (.error e, [.mkdtemp, .rmtree], fs)
  | .ok proc =>
    if proc.returncode ≠ 0 then
      (.ok (0, some ("bsdtar failed (code " ++ intRepr proc.returncode ++ "). Output:\n"
        ++ proc.stdout)), [.mkdtemp, .toolRun, .rmtree], fs)
    else
      let r := merge_tree_flat overwrite dest fs scratch
      (.ok (r.1, none), [.mkdtemp, .toolRun, .flattened r.1, .rmtree], r.2)

/-- Embeds `extract_via_unrar_cli`: return code 1 is tolerated
(`returncode not in (0, 1)` is the failure test). -/
def extract_via_unrar_cli (runRes : Except PyExn ProcResult) (scratch : List Entry)
    (overwrite : Bool) (dest : PyPath) (fs : List PyPath) : CliResult :=
  match runRes with
  | .error e => (.error e, [.mkdtemp, .rmtree], fs)
  | .ok proc =>
    if ¬(proc.returncode = 0 ∨ proc.returncode = 1) then
      (.ok (0, some ("unrar failed (code " ++ intRepr proc.returncode ++ "). Output:\n"
        ++ proc.stdout)), [.mkdtemp, .toolRun, .rmtree], fs)
    else
      let r := merge_tree_flat overwrite dest fs scratch
      (.ok (r.1, none), [.mkdtemp, .toolRun, .flattened r.1, .rmtree], r.2)

/-- Embeds `extract_via_unar_cli`. -/
def extract_via_unar_cli (runRes : Except PyExn ProcResult) (scratch : List Entry)
    (overwrite : Bool) (dest : PyPath) (fs : List PyPath) : CliResult :=
  match runRes with
  | .error e => (.error e, [.mkdtemp, .rmtree], fs)
  | .ok proc =>
    if proc.returncode ≠ 0 then
      (.ok (0, some ("unar failed (code " ++ intRepr proc.returncode ++ "). Output:\n"
        ++ proc.stdout)), [.mkdtemp, .toolRun, .rmtree], fs)
    else
      let r := merge_tree_flat overwrite dest fs scratch
      (.ok (r.1, none), [.mkdtemp, .toolRun, .flattened r.1, .rmtree], r.2)

/-! ## Format detection -/

/-- Embeds `is_zip`: `p.suffix.lower() == ".zip"`, on the file name. -/
def is_zip (name : String) : Bool :=
  lowerStr (pyStemSuffix name).2 = ".zip"

/-- Embeds `is_7z`. -/
def is_7z (name : String) : Bool :=
  lowerStr (pyStemSuffix name).2 = ".7z"

/-- Embeds `is_rar`. -/
def is_rar (name : String) : Bool :=
  lowerStr (pyStemSuffix name).2 = ".rar"

/-- Embeds `is_tar_like`. -/
def is_tar_like (name : String) : Bool :=
  let n := lowerStr name
  strEndsWith n ".tar" || strEndsWith n ".tar.gz" || strEndsWith n ".tgz" ||
  strEndsWith n ".tar.bz2" || strEndsWith n ".tbz2" ||
  strEndsWith n ".tar.xz" || strEndsWith n ".txz"

/-! ## Dispatcher: `extract_archive_flat` -/

/-- Which external tools `find_7z_exe` / `find_bsdtar_exe` /
`find_unrar_exe` / `find_unar_exe` located (the located executable path, or
`none`), and whether the optional `py7zr` / `rarfile` libraries imported. -/
structure Tools where
  sevenz : Option String
  bsdtar : Option String
  unrar : Option String
  unar : Option String
  py7zr : Bool
  rarfile : Bool
  deriving DecidableEq, Repr

/-- Oracles for everything one `extract_archive_flat` call may run: the
in-process zip and tar openings (which may raise), each external tool's
process result and scratch output, and the optional library fallbacks. -/
structure ArchEnv where
  zipRes : Except PyExn Nat
  tarOpen : Except PyExn (List TarMember)
  run7z : Except PyExn ProcResult
  scratch7z : List Entry
  runBsdtar : Except PyExn ProcResult
  scratchBsdtar : List Entry
  runUnrar : Except PyExn ProcResult
  scratchUnrar : List Entry
  runUnar : Except PyExn ProcResult
  scratchUnar : List Entry
  py7zRes : Except PyExn Nat
  rarRes : Except PyExn Nat

/-- The messages of the three `except` clauses of `extract_archive_flat`. -/
def exnMsg (e : PyExn) (archiveName : String) : String :=
  match e with
  | .badZip => "Corrupt/invalid archive: " ++ archiveName
  | .tarError m => "Tar error on " ++ archiveName ++ ": " ++ m
  | .other m => "Error on " ++ archiveName ++ ": " ++ m

/-- The `try`/`except` boundary of `extract_archive_flat`: a raised
exception becomes a zero-count outcome with a human-readable message. -/
def exceptWrap (archiveName : String) : Except PyExn (Nat × Option String) →
    Nat × Option String
  | .ok r => r
  | .error e => (0, some (exnMsg e archiveName))

/-- The "No extractor available" message assembled at the end of the
7z/rar branch. -/
def noExtractorMsg (name : String) : String :=
  let need := (if is_7z name then ["7-Zip (7z) or py7zr"] else []) ++
    (if is_rar name then ["7-Zip (7z) / bsdtar / unrar / unar / rarfile"] else [])
  "No extractor available. Install " ++ String.intercalate " / " need ++ "."

/-- The body of `extract_archive_flat` inside its `try`. -/
def extract_archive_body (tools : Tools) (env : ArchEnv) (cwd : List String)
    (overwrite : Bool) (dest : PyPath) (fs : List PyPath) (name : String) :
    Except PyExn (Nat × Option String) :=
  if is_zip name then env.zipRes.map (fun n => (n, none))
  else if is_tar_like name then
    match env.tarOpen with
    | .error e => .error e
    | .ok members => .ok ((extract_tar_flat cwd overwrite dest fs members).1, none)
  else if is_7z name || is_rar name then
    if tools.sevenz.isSome then
      (extract_via_7z_cli env.run7z env.scratch7z overwrite dest fs).1
    else if tools.bsdtar.isSome then
      (extract_via_bsdtar_cli env.runBsdtar env.scratchBsdtar overwrite dest fs).1
    else if is_rar name && tools.unrar.isSome then
      (extract_via_unrar_cli env.runUnrar env.scratchUnrar overwrite dest fs).1
    else if is_rar name && tools.unar.isSome then
      (extract_via_unar_cli env.runUnar env.scratchUnar overwrite dest fs).1
    else if is_7z name && tools.py7zr then env.py7zRes.map (fun n => (n, none))
    else if is_rar name && tools.rarfile then env.rarRes.map (fun n => (n, none))
    else .ok (0, some (noExtractorMsg name))
  else
    if tools.sevenz.isSome then
      (extract_via_7z_cli env.run7z env.scratch7z overwrite dest fs).1
    else if tools.bsdtar.isSome then
      (extract_via_bsdtar_cli env.runBsdtar env.scratchBsdtar overwrite dest fs).1
    else .ok (0, some ("Unsupported archive type: " ++ name))

/-- Embeds `extract_archive_flat(archive, dest)`: the dispatcher over the
detected format with its fallback chain, wrapped in the `try`/`except`
that localizes every per-archive error into a `(0, message)` outcome. -/
def extract_archive_flat (tools : Tools) (env : ArchEnv) (cwd : List String)
    (overwrite : Bool) (dest : PyPath) (fs : List PyPath) (name : String) :
    Nat × Option String :=
  exceptWrap name (extract_archive_body tools env cwd overwrite dest fs name)

/-! ## Orchestrator: `extract_all_in_folder_flat` -/

def UNARCHIVED_DIRNAME : String := "unarchived"

/-- The tool-availability banner logged before extraction begins. -/
def toolsBanner (tools : Tools) : String :=
  "Tools → 7z: " ++ tools.sevenz.getD "no" ++
  ", bsdtar: " ++ tools.bsdtar.getD "no" ++
  ", unrar: " ++ tools.unrar.getD "no" ++
  ", unar: " ++ tools.unar.getD "no" ++
  ", py7zr: " ++ (if tools.py7zr then "yes" else "no") ++
  ", rarfile: " ++ (if tools.rarfile then "yes" else "no")

/-- Per-archive log line: failure with the error text, or success with the
written count. -/
def archiveLogLine (name : String) (outcome : Nat × Option String) : String :=
  match outcome.2 with
  | some err => "❌ " ++ name ++ ": " ++ err
  | none => "✅ " ++ name ++ " → unarchived (" ++ natRepr outcome.1 ++ " file(s))"

/-- What one orchestrator run produced: the returned destination root, the
lines given to `log_cb` in order, and the `(current, total)` pairs given to
`progress_cb` in order. -/
structure RunResult where
  dest : PyPath
  logs : List String
  progress : List (Nat × Nat)
  deriving DecidableEq, Repr

/-- Embeds `extract_all_in_folder_flat(root, progress_cb, log_cb)`.
`archives` is the sorted `archive_list(root)` enumeration, each file name
paired with the oracle for its extraction attempt.  Each archive is
dispatched to `extract_archive_flat`; its outcome is logged, progress is
reported, and the loop continues regardless of failures. -/
def extract_all_in_folder_flat (tools : Tools) (cwd : List String) (overwrite : Bool)
    (fs : List PyPath) (root : PyPath) (archives : List (String × ArchEnv)) : RunResult :=
  let dest : PyPath := ⟨root.absolute, root.segs ++ [UNARCHIVED_DIRNAME]⟩
  let total := archives.length
  if total = 0 then
    { dest := dest
      logs := [toolsBanner tools, "ℹ️ No archives found in the selected folder."]
      progress := [(0, 0)] }
  else
    let outcomes := archives.map (fun a =>
      (a.1, extract_archive_flat tools a.2 cwd overwrite dest fs a.1))
    let success := (outcomes.filter (fun o => o.2.2 = none)).length
    let failed := (outcomes.filter (fun o => o.2.2 ≠ none)).length
    let totalWritten := (outcomes.map (fun o => if o.2.2 = none then o.2.1 else 0)).sum
    { dest := dest
      logs := [toolsBanner tools,
          "📦 Found " ++ natRepr total ++ " archive(s). Extracting to: "
            ++ strOfResolved dest] ++
        outcomes.map (fun o => archiveLogLine o.1 o.2) ++
        ["\nDone. ✅ " ++ natRepr success ++ " succeeded, ❌ " ++ natRepr failed ++
          " failed. Files written: " ++ natRepr totalWritten]
      progress := (List.range total).map (fun i => (i + 1, total)) }

/-! ## Lemmas about `natRepr` and `unique_file` -/

theorem unval_append (l : List Char) (c : Char) :
    unval (l ++ [c]) = unval l * 10 + (c.toNat - 48) := by
  simp [unval, List.foldl_append]

theorem digitChar_toNat_sub : ∀ d, d < 10 → (Nat.digitChar d).toNat - 48 = d := by
  decide

theorem unval_natReprAux : ∀ (fuel m : Nat), m ≤ fuel → unval (natReprAux fuel m) = m := by
  intro fuel
  induction fuel with
  | zero =>
    intro m hm
    interval_cases m
    simp [natReprAux, unval]
  | succ f ih =>
    intro m hm
    match m with
    | 0 => simp [natReprAux, unval]
    | k + 1 =>
      have hdiv : (k + 1) / 10 ≤ f := by
        have := Nat.div_lt_self (Nat.succ_pos k) (by norm_num : (1:Nat) < 10)
        omega
      have hmod : (k + 1) % 10 < 10 := Nat.mod_lt _ (by norm_num)
      calc unval (natReprAux (f + 1) (k + 1))
          = unval (natReprAux f ((k + 1) / 10) ++ [Nat.digitChar ((k + 1) % 10)]) := rfl
        _ = unval (natReprAux f ((k + 1) / 10)) * 10
              + ((Nat.digitChar ((k + 1) % 10)).toNat - 48) := unval_append _ _
        _ = (k + 1) / 10 * 10 + (k + 1) % 10 := by
              rw [ih _ hdiv, digitChar_toNat_sub _ hmod]
        _ = k + 1 := by omega

theorem unval_natRepr (n : Nat) : unval (natRepr n).data = n := by
  by_cases h : n = 0
  · subst h; decide
  · rw [natRepr, if_neg h]
    exact unval_natReprAux n n (Nat.le_refl n)

theorem natRepr_inj {m n : Nat} (h : natRepr m = natRepr n) : m = n := by
  have := congrArg (fun s => unval s.data) h
  simpa [unval_natRepr] using this

theorem string_data_append (a b : String) : (a ++ b).data = a.data ++ b.data := rfl

theorem suffixCandidate_inj {p : PyPath} {i j : Nat}
    (h : suffixCandidate p i = suffixCandidate p j) : i = j := by
  have hsegs : p.segs.dropLast ++ [pathStem p ++ "_" ++ natRepr i ++ pathSuffix p] =
      p.segs.dropLast ++ [pathStem p ++ "_" ++ natRepr j ++ pathSuffix p] :=
    congrArg PyPath.segs h
  have hname := List.head_eq_of_cons_eq (List.append_cancel_left hsegs)
  have hdata := congrArg String.data hname
  simp only [string_data_append] at hdata
  have h1 := List.append_cancel_right hdata
  have h3 := List.append_cancel_left h1
  have : natRepr i = natRepr j := by
    cases hri : natRepr i with
    | mk d => cases hrj : natRepr j with
      | mk d' =>
        rw [hri, hrj] at h3
        exact congrArg String.mk (by simpa using h3)
  exact natRepr_inj this

theorem uniqueGo_spec (fs : List PyPath) (p : PyPath) :
    ∀ (fuel i : Nat), (∃ j, i ≤ j ∧ j < i + fuel ∧ suffixCandidate p j ∉ fs) →
      ∃ k, i ≤ k ∧ uniqueGo fs p i fuel = suffixCandidate p k ∧
        suffixCandidate p k ∉ fs ∧ ∀ j, i ≤ j → j < k → suffixCandidate p j ∈ fs := by
  intro fuel
  induction fuel with
  | zero =>
    intro i ⟨j, h1, h2, _⟩
    omega
  | succ f ih =>
    intro i hex
    by_cases hc : suffixCandidate p i ∈ fs
    · obtain ⟨j, h1, h2, h3⟩ := hex
      have hji : i + 1 ≤ j := by
        rcases Nat.eq_or_lt_of_le h1 with heq | hlt
        · exact absurd hc (heq ▸ h3)
        · exact hlt
      obtain ⟨k, hk1, hk2, hk3, hk4⟩ := ih (i + 1) ⟨j, hji, by omega, h3⟩
      refine ⟨k, by omega, ?_, hk3, ?_⟩
      · simpa [uniqueGo, hc] using hk2
      · intro j' hj1 hj2
        rcases Nat.eq_or_lt_of_le hj1 with heq | hlt
        · exact heq ▸ hc
        · exact hk4 j' hlt hj2
    · exact ⟨i, Nat.le_refl i, by simp [uniqueGo, hc], hc, fun j hj1 hj2 => by omega⟩

theorem exists_free_candidate (fs : List PyPath) (p : PyPath) :
    ∃ j, 1 ≤ j ∧ j < 1 + (fs.length + 1) ∧ suffixCandidate p j ∉ fs := by
  by_contra hall
  push_neg at hall
  have hmem : ∀ k ∈ Finset.range (fs.length + 1), suffixCandidate p (k + 1) ∈ fs.toFinset := by
    intro k hk
    rw [List.mem_toFinset]
    exact hall (k + 1) (by omega) (by simp at hk; omega)
  have hinj : Set.InjOn (fun k => suffixCandidate p (k + 1))
      ↑(Finset.range (fs.length + 1)) := by
    intro a _ b _ hab
    have := suffixCandidate_inj hab
    omega
  have hcard := Finset.card_le_card_of_injOn _ hmem hinj
  have hle := fs.toFinset_card_le
  simp [Finset.card_range] at hcard
  omega

/-- C5 helper: full behavioural characterization of `unique_file`. -/
theorem unique_file_cases (fs : List PyPath) (ow : Bool) (p : PyPath) :
    (ow = true → unique_file fs ow p = p) ∧
    (p ∉ fs → unique_file fs ow p = p) ∧
    (ow = false → p ∈ fs →
      ∃ i, 1 ≤ i ∧ unique_file fs ow p = suffixCandidate p i ∧
        suffixCandidate p i ∉ fs ∧ ∀ j, 1 ≤ j → j < i → suffixCandidate p j ∈ fs) := by
  refine ⟨fun how => by simp [unique_file, how], fun hp => by simp [unique_file, hp], ?_⟩
  intro how hp
  obtain ⟨j, h1, h2, h3⟩ := exists_free_candidate fs p
  obtain ⟨k, hk1, hk2, hk3, hk4⟩ :=
    uniqueGo_spec fs p (fs.length + 1) 1 ⟨j, h1, h2, h3⟩
  refine ⟨k, hk1, ?_, hk3, hk4⟩
  simpa [unique_file, how, hp] using hk2

/-! ## Lemmas about `safe_member_target` -/

/-- The claim's "descendant of, or equal to" relation: after resolution,
the root's segments are an initial segment of the path's segments. -/
def isDescendantOf (cwd : List String) (p root : PyPath) : Prop :=
  (resolvePath cwd root).segs <+: (resolvePath cwd p).segs

instance (cwd : List String) (p root : PyPath) : Decidable (isDescendantOf cwd p root) :=
  inferInstanceAs (Decidable (_ <+: _))

theorem splitSlashAux_no_slash (cs : List Char) :
    ∀ acc, '/' ∉ cs → splitSlashAux cs acc = [⟨acc.reverse ++ cs⟩] := by
  induction cs with
  | nil => intro acc _; simp [splitSlashAux]
  | cons c rest ih =>
    intro acc h
    have hc : ¬c = '/' := fun hne => h (hne ▸ List.mem_cons_self c rest)
    have hrest : '/' ∉ rest := fun hm => h (List.mem_cons_of_mem c hm)
    simp [splitSlashAux, hc, ih (c :: acc) hrest]

theorem splitSlashAux_chunks_no_slash (cs : List Char) :
    ∀ acc, '/' ∉ acc → ∀ t ∈ splitSlashAux cs acc, '/' ∉ t.data := by
  induction cs with
  | nil =>
    intro acc hacc t ht
    simp [splitSlashAux] at ht
    subst ht
    simpa using hacc
  | cons c rest ih =>
    intro acc hacc t ht
    by_cases hc : c = '/'
    · rw [splitSlashAux, if_pos hc] at ht
      rcases List.mem_cons.mp ht with rfl | hmem
      · simpa using hacc
      · exact ih [] (by simp) t hmem
    · rw [splitSlashAux, if_neg hc] at ht
      refine ih (c :: acc) ?_ t ht
      intro hm
      rcases List.mem_cons.mp hm with h' | h'
      · exact hc h'.symm
      · exact hacc h'

theorem pyName_no_slash (member : String) : '/' ∉ (pyName (parsePath member)).data := by
  unfold pyName parsePath
  cases hl : ((splitSlash member.data).filter (fun t => t ≠ "" && t ≠ ".")).getLast? with
  | none => simp
  | some t =>
    simp only [hl, Option.getD_some]
    have ht : t ∈ (splitSlash member.data).filter (fun t => t ≠ "" && t ≠ ".") :=
      List.mem_of_mem_getLast? hl
    have ht' : t ∈ splitSlash member.data := List.mem_of_mem_filter ht
    exact splitSlashAux_chunks_no_slash member.data [] (by simp) t ht'

theorem normSegs_append_single (l : List String) (s : String)
    (h1 : s ≠ "") (h2 : s ≠ ".") (h3 : s ≠ "..") :
    normSegs (l ++ [s]) = normSegs l ++ [s] := by
  simp [normSegs, List.foldl_append, h1, h2, h3]

theorem joinSlash_append_single (N : List String) (n : String) (h : N ≠ []) :
    joinSlash (N ++ [n]) = joinSlash N ++ '/' :: n.data := by
  induction N with
  | nil => exact absurd rfl h
  | cons a t ih =>
    cases t with
    | nil => simp [joinSlash]
    | cons b t' =>
      have := ih (by simp)
      simp only [List.cons_append, joinSlash, List.append_eq] at this ⊢
      rw [this]
      simp

theorem splitSlash_single (n : String) (h : '/' ∉ n.data) : splitSlash n.data = [n] := by
  rw [splitSlash, splitSlashAux_no_slash n.data [] h]
  simp

/-- In the fallback branch, joining the member's final component onto
`base` appends one segment (given that component is a normal name). -/
theorem joinSeg_normal (base : PyPath) (n : String)
    (hs : '/' ∉ n.data) (h1 : n ≠ "") (h2 : n ≠ ".") :
    joinSeg base n = ⟨base.absolute, base.segs ++ [n]⟩ := by
  have hhead : ¬n.data.head? = some '/' := by
    cases hd : n.data with
    | nil => simp
    | cons c cs =>
      simp only [List.head?_cons, Option.some.injEq]
      intro hc
      exact hs (hd ▸ (hc ▸ List.mem_cons_self c cs))
  rw [joinSeg, if_neg hhead, if_neg h1, splitSlash_single n hs]
  simp [h1, h2]

/-- The member's final component, when nonempty, survived the parser's
filter, so it is not `"."`. -/
theorem pyName_ne_dot (member : String) (h : pyName (parsePath member) ≠ "") :
    pyName (parsePath member) ≠ "." := by
  unfold pyName parsePath at *
  cases hl : ((splitSlash member.data).filter (fun t => t ≠ "" && t ≠ ".")).getLast? with
  | none =>
    rw [hl] at h
    exact absurd rfl h
  | some t =>
    simp only [hl, Option.getD_some]
    have ht := List.mem_of_mem_getLast? hl
    have := List.of_mem_filter ht
    simp at this
    exact this.2

/-- A resolved path whose segments extend the root's resolved segments by
one normal name has the root's string as a string prefix. -/
theorem strOf_append_single (N : List String) (n : String) :
    pyStartsWith ⟨'/' :: joinSlash (N ++ [n])⟩ ⟨'/' :: joinSlash N⟩ := by
  unfold pyStartsWith
  cases N with
  | nil => simp [joinSlash, List.cons_prefix_cons]
  | cons a t =>
    rw [joinSlash_append_single (a :: t) n (by simp)]
    simp only [List.cons_prefix_cons]
    exact ⟨trivial, List.prefix_append _ _⟩

/-! ## Claim theorems -/

/-- C1 counterexample: the claim "the target is always a descendant of the
destination root" is false.  With destination root `/dest`, the member
path `/destroyer/x` is returned unchanged — the string-prefix check
accepts it because `"/destroyer/x"` starts with `"/dest"` — and the member
path `/x/..` is redirected to `/dest/..`, which resolves to `/`, above the
root. -/
theorem safe_member_target_escapes :
    ¬ isDescendantOf [] (safe_member_target [] ⟨true, ["dest"]⟩ "/destroyer/x")
        ⟨true, ["dest"]⟩ ∧
    safe_member_target [] ⟨true, ["dest"]⟩ "/destroyer/x" = ⟨true, ["destroyer", "x"]⟩ ∧
    safe_member_target [] ⟨true, ["dest"]⟩ "/x/.." = ⟨true, ["dest", ".."]⟩ ∧
    resolvePath [] (safe_member_target [] ⟨true, ["dest"]⟩ "/x/..") = ⟨true, []⟩ := by
  decide

/-- C1 (amended): what `safe_member_target` actually guarantees is a
string-prefix property, not descendance — for every destination root,
working directory and member path whose final component is not `".."`,
the canonical string of the returned target starts with the canonical
string of the destination root.  (A sibling of the root whose name merely
extends the root's name string, such as `/destroyer/x` for root `/dest`,
passes the check while escaping the root; a member whose final component
is `".."` can even be sent to the root's parent.) -/
theorem safe_member_target_string_prefix (cwd : List String) (base : PyPath)
    (member : String) (h : pyName (parsePath member) ≠ "..") :
    pyStartsWith (strOfResolved (resolvePath cwd (safe_member_target cwd base member)))
      (strOfResolved (resolvePath cwd base)) := by
  simp only [safe_member_target]
  split
  next hparts =>
    rw [if_pos (show pyStartsWith (strOfResolved (resolvePath cwd base))
      (strOfResolved (resolvePath cwd base)) from List.prefix_refl _)]
    exact List.prefix_refl _
  next hparts =>
    split
    next hcond => exact hcond
    next hcond =>
      by_cases hn : pyName (parsePath member) = ""
      · rw [hn]
        have hjoin : joinSeg base "" = base := rfl
        rw [hjoin]
        exact List.prefix_refl _
      · have hdot := pyName_ne_dot member hn
        have hslash := pyName_no_slash member
        rw [joinSeg_normal base _ hslash hn hdot]
        show pyStartsWith
          (strOfResolved ⟨true, normSegs ((if base.absolute then [] else cwd) ++
            (base.segs ++ [pyName (parsePath member)]))⟩)
          (strOfResolved ⟨true, normSegs ((if base.absolute then [] else cwd) ++ base.segs)⟩)
        rw [← List.append_assoc, normSegs_append_single _ _ hn hdot h]
        exact strOf_append_single _ _

/-- C1 witness for `safe_member_target_string_prefix` at a concrete input:
root `/dest`, member `a/b.txt`. -/
theorem safe_member_target_string_prefix_witness :
    pyName (parsePath "a/b.txt") ≠ ".." ∧
    pyStartsWith
      (strOfResolved (resolvePath [] (safe_member_target [] ⟨true, ["dest"]⟩ "a/b.txt")))
      (strOfResolved (resolvePath [] ⟨true, ["dest"]⟩)) :=
  ⟨by decide, safe_member_target_string_prefix [] ⟨true, ["dest"]⟩ "a/b.txt" (by decide)⟩

/-- C9: a member name all of whose path segments are `""`, `"."` or `".."`
(such as `".."` or `"../.."`) is targeted at the destination root itself,
with no error signalled: all its parts are dropped, the join is the root,
and the root trivially passes the string-prefix check. -/
theorem safe_member_target_trivial_segments (cwd : List String) (base : PyPath)
    (member : String)
    (h : ∀ q ∈ pyParts (parsePath member), q = "" ∨ q = "." ∨ q = "..") :
    safe_member_target cwd base member = base := by
  have hfil : (pyParts (parsePath member)).filter
      (fun p => p ≠ "" && p ≠ "." && p ≠ "..") = [] := by
    rw [List.filter_eq_nil_iff]
    intro a ha
    rcases h a ha with rfl | rfl | rfl <;> simp
  simp only [safe_member_target, hfil]
  simp [pyStartsWith]

/-- C9 witness: the member `"../.."` with root `/d` is targeted at `/d`. -/
theorem safe_member_target_trivial_segments_witness :
    (∀ q ∈ pyParts (parsePath "../.."), q = "" ∨ q = "." ∨ q = "..") ∧
    safe_member_target [] ⟨true, ["d"]⟩ "../.." = ⟨true, ["d"]⟩ :=
  ⟨by decide, safe_member_target_trivial_segments [] ⟨true, ["d"]⟩ "../.." (by decide)⟩

/-- C5: `unique_file` returns the candidate unchanged when the overwrite
flag is set, and when the candidate is not on disk; otherwise it returns
the candidate with the smallest suffix index `_1, _2, …` (inserted before
the extension by `suffixCandidate`) whose path is not on disk. -/
theorem unique_file_spec (fs : List PyPath) (ow : Bool) (p : PyPath) :
    (ow = true → unique_file fs ow p = p) ∧
    (p ∉ fs → unique_file fs ow p = p) ∧
    (ow = false → p ∈ fs →
      ∃ i, 1 ≤ i ∧ unique_file fs ow p = suffixCandidate p i ∧
        suffixCandidate p i ∉ fs ∧ ∀ j, 1 ≤ j → j < i → suffixCandidate p j ∈ fs) :=
  unique_file_cases fs ow p

/-- C5 witness: with `d/a.txt` and `d/a_1.txt` on disk, the candidate
`d/a.txt` is renamed to the smallest free suffix. -/
theorem unique_file_spec_witness :
    (false : Bool) = false ∧
    (⟨true, ["d", "a.txt"]⟩ : PyPath) ∈
      [(⟨true, ["d", "a.txt"]⟩ : PyPath), ⟨true, ["d", "a_1.txt"]⟩] ∧
    ∃ i, 1 ≤ i ∧
      unique_file [⟨true, ["d", "a.txt"]⟩, ⟨true, ["d", "a_1.txt"]⟩] false
          ⟨true, ["d", "a.txt"]⟩ =
        suffixCandidate ⟨true, ["d", "a.txt"]⟩ i ∧
      suffixCandidate ⟨true, ["d", "a.txt"]⟩ i ∉
        [(⟨true, ["d", "a.txt"]⟩ : PyPath), ⟨true, ["d", "a_1.txt"]⟩] ∧
      ∀ j, 1 ≤ j → j < i → suffixCandidate ⟨true, ["d", "a.txt"]⟩ j ∈
        [(⟨true, ["d", "a.txt"]⟩ : PyPath), ⟨true, ["d", "a_1.txt"]⟩] :=
  ⟨rfl, by decide,
    (unique_file_spec [⟨true, ["d", "a.txt"]⟩, ⟨true, ["d", "a_1.txt"]⟩] false
      ⟨true, ["d", "a.txt"]⟩).2.2 rfl (by decide)⟩

/-- C10: the existing paths are a finite list `fs`, fixed during the call;
`unique_file` is total over it (the source's `while True` loop is bounded
by the pigeonhole argument `exists_free_candidate`: the candidates are
pairwise distinct, so at most `fs.length` of them can be on disk), and
with overwrite off the returned path is never on disk. -/
theorem unique_file_result_fresh (fs : List PyPath) (p : PyPath) :
    unique_file fs false p ∉ fs := by
  by_cases hp : p ∈ fs
  · obtain ⟨i, _, heq, hfree, _⟩ := (unique_file_cases fs false p).2.2 rfl hp
    rw [heq]
    exact hfree
  · rw [(unique_file_cases fs false p).2.1 hp]
    exact hp

/-- The moved counter of the flatten loop counts exactly the entries that
`is_dir()` rejects. -/
theorem merge_foldl_fst (ow : Bool) (dest : PyPath) :
    ∀ (entries : List Entry) (st : Nat × List PyPath),
      (entries.foldl (mergeStep ow dest) st).1 =
        st.1 + (entries.filter (fun e => !e.kind.isDirLike)).length := by
  intro entries
  induction entries with
  | nil => intro st; simp
  | cons e es ih =>
    intro st
    rw [List.foldl_cons, ih]
    by_cases hk : e.kind.isDirLike
    · simp [mergeStep, hk]
    · simp [mergeStep, hk]
      omega

/-- C3 counterexample: `merge_tree_flat` does not skip links.  A source
tree consisting of one symbolic link to a file (`is_dir()` false) gets
moved into the destination and counted: the run returns `filesWritten = 1`
and the link's target path is on disk afterwards. -/
theorem merge_tree_flat_moves_file_symlink :
    (merge_tree_flat false ⟨true, ["d"]⟩ [] [⟨["lnk"], .symlinkToFile⟩]).1 = 1 ∧
    (⟨true, ["d", "lnk"]⟩ : PyPath) ∈
      (merge_tree_flat false ⟨true, ["d"]⟩ [] [⟨["lnk"], .symlinkToFile⟩]).2 := by
  decide

/-- C3 (amended): `merge_tree_flat` has no link handling at all.  Entries
that `Path.is_dir()` reports as directories — real directories and
symlinks to directories, since `is_dir()` follows links — only create the
mirrored directory; every other entry, including symlinks to files and
broken symlinks, is moved through `unique_file` and counted, so
`filesWritten` is exactly the number of non-directory-like entries.
(The link skipping the spec describes exists only in `extract_tar_flat`.) -/
theorem merge_tree_flat_count (ow : Bool) (dest : PyPath) (fs : List PyPath)
    (entries : List Entry) :
    (merge_tree_flat ow dest fs entries).1 =
      (entries.filter (fun e => !e.kind.isDirLike)).length := by
  rw [merge_tree_flat, merge_foldl_fst]
  simp

/-- The written counter of the tar loop counts exactly the regular
members. -/
theorem tar_foldl_fst (cwd : List String) (ow : Bool) (dest : PyPath) :
    ∀ (members : List TarMember) (st : Nat × List PyPath),
      (members.foldl (tarStep cwd ow dest) st).1 =
        st.1 + (members.filter (fun m => m.kind == TarKind.regular)).length := by
  intro members
  induction members with
  | nil => intro st; simp
  | cons m ms ih =>
    intro st
    rw [List.foldl_cons, ih]
    cases hk : m.kind <;> (simp [tarStep, hk]; try omega)

/-- C8: in-process tar extraction skips every symbolic-link and hard-link
member (they leave the state untouched, contribute nothing to the count
and cause no error — the function is total), the written count is exactly
the number of regular members, and each regular member is streamed to its
`safe_member_target`-resolved, `unique_file`-uniquified target. -/
theorem extract_tar_flat_spec :
    (∀ (cwd : List String) (ow : Bool) (dest : PyPath) (st : Nat × List PyPath)
        (m : TarMember), (m.kind = .symlink ∨ m.kind = .hardlink) →
      tarStep cwd ow dest st m = st) ∧
    (∀ (cwd : List String) (ow : Bool) (dest : PyPath) (fs : List PyPath)
        (members : List TarMember),
      (extract_tar_flat cwd ow dest fs members).1 =
        (members.filter (fun m => m.kind == TarKind.regular)).length) ∧
    (∀ (cwd : List String) (ow : Bool) (dest : PyPath) (st : Nat × List PyPath)
        (m : TarMember), m.kind = .regular →
      tarStep cwd ow dest st m =
        (st.1 + 1,
          unique_file (st.2 ++ mkdirParent (safe_member_target cwd dest m.name)) ow
              (safe_member_target cwd dest m.name) ::
            (st.2 ++ mkdirParent (safe_member_target cwd dest m.name)))) := by
  refine ⟨?_, ?_, ?_⟩
  · intro cwd ow dest st m hm
    rcases hm with hm | hm <;> simp [tarStep, hm]
  · intro cwd ow dest fs members
    rw [extract_tar_flat, tar_foldl_fst]
    simp
  · intro cwd ow dest st m hm
    simp [tarStep, hm]

/-- C8 witness: a symbolic-link member leaves the state unchanged. -/
theorem extract_tar_flat_spec_witness :
    ((⟨"lnk", .symlink⟩ : TarMember).kind = .symlink ∨
      (⟨"lnk", .symlink⟩ : TarMember).kind = .hardlink) ∧
    tarStep [] false ⟨true, ["d"]⟩ (0, []) ⟨"lnk", .symlink⟩ = (0, []) :=
  ⟨Or.inl rfl,
    extract_tar_flat_spec.1 [] false ⟨true, ["d"]⟩ (0, []) ⟨"lnk", .symlink⟩ (Or.inl rfl)⟩

/-- C6: the unrar-compatible tool is the only one with a soft-failure
exit code: on exit code 1 it still flattens the scratch tree and returns a
success outcome; any other non-zero exit code of unrar, and any non-zero
exit code of 7z, bsdtar or unar, yields a zero-count error outcome. -/
theorem cli_exit_code_policy (proc : ProcResult) (scratch : List Entry) (ow : Bool)
    (dest : PyPath) (fs : List PyPath) :
    (proc.returncode = 1 →
      (extract_via_unrar_cli (.ok proc) scratch ow dest fs).1 =
        .ok ((merge_tree_flat ow dest fs scratch).1, none)) ∧
    (proc.returncode ≠ 0 → proc.returncode ≠ 1 →
      (extract_via_unrar_cli (.ok proc) scratch ow dest fs).1 =
        .ok (0, some ("unrar failed (code " ++ intRepr proc.returncode ++ "). Output:\n"
          ++ proc.stdout))) ∧
    (proc.returncode ≠ 0 →
      (extract_via_7z_cli (.ok proc) scratch ow dest fs).1 =
        .ok (0, some ("7z failed (code " ++ intRepr proc.returncode ++ "). Output:\n"
          ++ proc.stdout))) ∧
    (proc.returncode ≠ 0 →
      (extract_via_bsdtar_cli (.ok proc) scratch ow dest fs).1 =
        .ok (0, some ("bsdtar failed (code " ++ intRepr proc.returncode ++ "). Output:\n"
          ++ proc.stdout))) ∧
    (proc.returncode ≠ 0 →
      (extract_via_unar_cli (.ok proc) scratch ow dest fs).1 =
        .ok (0, some ("unar failed (code " ++ intRepr proc.returncode ++ "). Output:\n"
          ++ proc.stdout))) := by
  refine ⟨?_, ?_, ?_, ?_, ?_⟩
  · intro h1
    simp [extract_via_unrar_cli, h1]
  · intro h0 h1
    simp [extract_via_unrar_cli, h0, h1]
  · intro h0
    simp [extract_via_7z_cli, h0]
  · intro h0
    simp [extract_via_bsdtar_cli, h0]
  · intro h0
    simp [extract_via_unar_cli, h0]

/-- C6 witness: at exit code 1 unrar still flattens (one file moved), and
at exit code 2 every tool hard-fails. -/
theorem cli_exit_code_policy_witness :
    (1 : Int) = 1 ∧
    (extract_via_unrar_cli (.ok ⟨1, "warn"⟩) [⟨["f.txt"], .file⟩] false ⟨true, ["d"]⟩ []).1 =
      .ok ((merge_tree_flat false ⟨true, ["d"]⟩ [] [⟨["f.txt"], .file⟩]).1, none) ∧
    (2 : Int) ≠ 0 ∧ (2 : Int) ≠ 1 ∧
    (extract_via_unrar_cli (.ok ⟨2, "boom"⟩) [] false ⟨true, ["d"]⟩ []).1 =
      .ok (0, some ("unrar failed (code " ++ intRepr 2 ++ "). Output:\n" ++ "boom")) ∧
    (extract_via_7z_cli (.ok ⟨2, "boom"⟩) [] false ⟨true, ["d"]⟩ []).1 =
      .ok (0, some ("7z failed (code " ++ intRepr 2 ++ "). Output:\n" ++ "boom")) :=
  ⟨rfl,
    (cli_exit_code_policy ⟨1, "warn"⟩ [⟨["f.txt"], .file⟩] false ⟨true, ["d"]⟩ []).1 rfl,
    by decide, by decide,
    (cli_exit_code_policy ⟨2, "boom"⟩ [] false ⟨true, ["d"]⟩ []).2.1 (by decide) (by decide),
    (cli_exit_code_policy ⟨2, "boom"⟩ [] false ⟨true, ["d"]⟩ []).2.2.1 (by decide)⟩

/-- C7: every external-tool strategy invocation removes the scratch
directory it created before returning, on every path — success, tool
failure and raised exception alike: in each trace the `rmtree` events
balance the `mkdtemp` events and the final event is the `finally` block's
`rmtree`, so no scratch directory survives the invocation. -/
theorem cli_scratch_cleanup (runRes : Except PyExn ProcResult) (scratch : List Entry)
    (ow : Bool) (dest : PyPath) (fs : List PyPath) :
    (((extract_via_7z_cli runRes scratch ow dest fs).2.1.count Ev.rmtree =
        (extract_via_7z_cli runRes scratch ow dest fs).2.1.count Ev.mkdtemp) ∧
      (extract_via_7z_cli runRes scratch ow dest fs).2.1.getLast? = some Ev.rmtree) ∧
    (((extract_via_bsdtar_cli runRes scratch ow dest fs).2.1.count Ev.rmtree =
        (extract_via_bsdtar_cli runRes scratch ow dest fs).2.1.count Ev.mkdtemp) ∧
      (extract_via_bsdtar_cli runRes scratch ow dest fs).2.1.getLast? = some Ev.rmtree) ∧
    (((extract_via_unrar_cli runRes scratch ow dest fs).2.1.count Ev.rmtree =
        (extract_via_unrar_cli runRes scratch ow dest fs).2.1.count Ev.mkdtemp) ∧
      (extract_via_unrar_cli runRes scratch ow dest fs).2.1.getLast? = some Ev.rmtree) ∧
    (((extract_via_unar_cli runRes scratch ow dest fs).2.1.count Ev.rmtree =
        (extract_via_unar_cli runRes scratch ow dest fs).2.1.count Ev.mkdtemp) ∧
      (extract_via_unar_cli runRes scratch ow dest fs).2.1.getLast? = some Ev.rmtree) := by
  cases runRes with
  | error e =>
    refine ⟨⟨?_, ?_⟩, ⟨?_, ?_⟩, ⟨?_, ?_⟩, ⟨?_, ?_⟩⟩ <;>
      simp [extract_via_7z_cli, extract_via_bsdtar_cli, extract_via_unrar_cli,
        extract_via_unar_cli]
  | ok proc =>
    refine ⟨⟨?_, ?_⟩, ⟨?_, ?_⟩, ⟨?_, ?_⟩, ⟨?_, ?_⟩⟩ <;>
      [skip; skip; skip; skip;
        (by_cases h : proc.returncode = 0 ∨ proc.returncode = 1);
        (by_cases h : proc.returncode = 0 ∨ proc.returncode = 1);
        skip; skip] <;>
      first
      | (by_cases h0 : proc.returncode = 0 <;>
          simp [extract_via_7z_cli, extract_via_bsdtar_cli, extract_via_unar_cli, h0,
            List.count_cons])
      | simp [extract_via_unrar_cli, h, List.count_cons]

/-- Concrete tool environment for exercising the 7z → bsdtar chain: both
CLIs located, nothing else. -/
def c2Tools : Tools :=
  { sevenz := some "/usr/bin/7z", bsdtar := some "/usr/bin/bsdtar",
    unrar := none, unar := none, py7zr := false, rarfile := false }

/-- Concrete oracle in which the 7z invocation fails with exit code 2
while the bsdtar invocation would succeed and extract one file. -/
def c2Env : ArchEnv :=
  { zipRes := .ok 0, tarOpen := .ok [],
    run7z := .ok ⟨2, "boom"⟩, scratch7z := [],
    runBsdtar := .ok ⟨0, ""⟩, scratchBsdtar := [⟨["f.txt"], .file⟩],
    runUnrar := .ok ⟨0, ""⟩, scratchUnrar := [],
    runUnar := .ok ⟨0, ""⟩, scratchUnar := [],
    py7zRes := .ok 0, rarRes := .ok 0 }

/-- C2 counterexample: the chain does not move on when an invocation
fails.  With both 7z and bsdtar available, a `a.7z` archive whose 7z
invocation exits with code 2 is reported failed with a zero count, even
though the bsdtar strategy would have succeeded with one file — the next
strategy is never attempted. -/
theorem extract_archive_flat_no_retry :
    extract_archive_flat c2Tools c2Env [] false ⟨true, ["d"]⟩ [] "a.7z" =
      (0, some "7z failed (code 2). Output:\nboom") ∧
    (extract_via_bsdtar_cli c2Env.runBsdtar c2Env.scratchBsdtar false ⟨true, ["d"]⟩ []).1 =
      .ok (1, none) := by
  decide

/-- C2 (amended): the 7z/rar fallback chain is ordered by tool
*availability*, not invocation success: the first located tool in the
order 7z CLI, bsdtar CLI, then (rar only) unrar CLI, then (rar only) unar
CLI is selected and its outcome — success or failure — is returned as the
archive's outcome; the library fallbacks and the "no extractor" failure
are reached only when every earlier tool is absent. -/
theorem extract_archive_flat_availability_chain (tools : Tools) (env : ArchEnv)
    (cwd : List String) (ow : Bool) (dest : PyPath) (fs : List PyPath) (name : String)
    (hz : is_zip name = false) (ht : is_tar_like name = false)
    (h7r : (is_7z name || is_rar name) = true) :
    (tools.sevenz.isSome = true →
      extract_archive_flat tools env cwd ow dest fs name =
        exceptWrap name (extract_via_7z_cli env.run7z env.scratch7z ow dest fs).1) ∧
    (tools.sevenz = none → tools.bsdtar.isSome = true →
      extract_archive_flat tools env cwd ow dest fs name =
        exceptWrap name (extract_via_bsdtar_cli env.runBsdtar env.scratchBsdtar ow dest fs).1) ∧
    (tools.sevenz = none → tools.bsdtar = none → is_rar name = true →
        tools.unrar.isSome = true →
      extract_archive_flat tools env cwd ow dest fs name =
        exceptWrap name (extract_via_unrar_cli env.runUnrar env.scratchUnrar ow dest fs).1) ∧
    (tools.sevenz = none → tools.bsdtar = none → tools.unrar = none →
        is_rar name = true → tools.unar.isSome = true →
      extract_archive_flat tools env cwd ow dest fs name =
        exceptWrap name (extract_via_unar_cli env.runUnar env.scratchUnar ow dest fs).1) ∧
    (tools.sevenz = none → tools.bsdtar = none → tools.unrar = none → tools.unar = none →
        tools.py7zr = false → tools.rarfile = false →
      extract_archive_flat tools env cwd ow dest fs name = (0, some (noExtractorMsg name))) := by
  refine ⟨?_, ?_, ?_, ?_, ?_⟩
  · intro h1
    simp [extract_archive_flat, extract_archive_body, hz, ht, h7r, h1]
  · intro h1 h2
    simp [extract_archive_flat, extract_archive_body, hz, ht, h7r, h1, h2]
  · intro h1 h2 h3 h4
    simp [extract_archive_flat, extract_archive_body, hz, ht, h7r, h1, h2, h3, h4]
  · intro h1 h2 h3 h4 h5
    simp [extract_archive_flat, extract_archive_body, hz, ht, h7r, h1, h2, h3, h4, h5]
  · intro h1 h2 h3 h4 h5 h6
    simp [extract_archive_flat, extract_archive_body, hz, ht, h7r, h1, h2, h3, h4, h5, h6,
      exceptWrap]

/-- C2 witness: with 7z available the dispatch on `a.7z` is exactly the
wrapped 7z-CLI outcome. -/
theorem extract_archive_flat_availability_chain_witness :
    is_zip "a.7z" = false ∧ is_tar_like "a.7z" = false ∧
    (is_7z "a.7z" || is_rar "a.7z") = true ∧ c2Tools.sevenz.isSome = true ∧
    extract_archive_flat c2Tools c2Env [] false ⟨true, ["d"]⟩ [] "a.7z" =
      exceptWrap "a.7z" (extract_via_7z_cli c2Env.run7z c2Env.scratch7z false
        ⟨true, ["d"]⟩ []).1 :=
  ⟨by decide, by decide, by decide, by decide,
    (extract_archive_flat_availability_chain c2Tools c2Env [] false ⟨true, ["d"]⟩ [] "a.7z"
      (by decide) (by decide) (by decide)).1 (by decide)⟩

/-- Concrete oracle in which the in-process zip reader raises
`BadZipFile`. -/
def c4Env : ArchEnv :=
  { zipRes := .error .badZip, tarOpen := .ok [],
    run7z := .ok ⟨0, ""⟩, scratch7z := [],
    runBsdtar := .ok ⟨0, ""⟩, scratchBsdtar := [],
    runUnrar := .ok ⟨0, ""⟩, scratchUnrar := [],
    runUnar := .ok ⟨0, ""⟩, scratchUnar := [],
    py7zRes := .ok 0, rarRes := .ok 0 }

/-- C4: the run never fails as a whole due to an individual archive.
Every exception escaping a strategy is caught at the
`extract_archive_flat` boundary and becomes a zero-count outcome with a
human-readable description; the orchestrator visits every archive (one
progress report and one log line per archive, whatever the outcomes) and
returns the destination root unconditionally. -/
theorem orchestrator_recovers_per_archive_errors :
    (∀ (tools : Tools) (cwd : List String) (ow : Bool) (fs : List PyPath) (root : PyPath)
        (archives : List (String × ArchEnv)),
      (extract_all_in_folder_flat tools cwd ow fs root archives).dest =
        ⟨root.absolute, root.segs ++ [UNARCHIVED_DIRNAME]⟩) ∧
    (∀ (tools : Tools) (cwd : List String) (ow : Bool) (fs : List PyPath) (root : PyPath)
        (archives : List (String × ArchEnv)), archives ≠ [] →
      (extract_all_in_folder_flat tools cwd ow fs root archives).progress =
        (List.range archives.length).map (fun i => (i + 1, archives.length)) ∧
      (extract_all_in_folder_flat tools cwd ow fs root archives).logs.length =
        archives.length + 3) ∧
    (∀ (tools : Tools) (env : ArchEnv) (cwd : List String) (ow : Bool) (dest : PyPath)
        (fs : List PyPath) (name : String) (e : PyExn),
      extract_archive_body tools env cwd ow dest fs name = .error e →
      extract_archive_flat tools env cwd ow dest fs name = (0, some (exnMsg e name))) := by
  refine ⟨?_, ?_, ?_⟩
  · intro tools cwd ow fs root archives
    by_cases h : archives.length = 0 <;> simp [extract_all_in_folder_flat, h]
  · intro tools cwd ow fs root archives h
    have hlen : ¬archives.length = 0 := by
      simpa [List.length_eq_zero] using h
    refine ⟨by simp [extract_all_in_folder_flat, hlen], ?_⟩
    simp [extract_all_in_folder_flat, hlen]
  · intro tools env cwd ow dest fs name e hbody
    rw [extract_archive_flat, hbody]
    rfl

/-- C4 witness: a corrupt zip archive yields the zero-count
"Corrupt/invalid archive" outcome, and a one-archive run still reports
progress `(1, 1)` and four log lines. -/
theorem orchestrator_recovers_per_archive_errors_witness :
    extract_archive_body c2Tools c4Env [] false ⟨true, ["d"]⟩ [] "a.zip" =
      .error .badZip ∧
    extract_archive_flat c2Tools c4Env [] false ⟨true, ["d"]⟩ [] "a.zip" =
      (0, some (exnMsg .badZip "a.zip")) ∧
    ([("a.zip", c4Env)] : List (String × ArchEnv)) ≠ [] ∧
    (extract_all_in_folder_flat c2Tools [] false [] ⟨true, ["r"]⟩
        [("a.zip", c4Env)]).progress =
      (List.range 1).map (fun i => (i + 1, 1)) ∧
    (extract_all_in_folder_flat c2Tools [] false [] ⟨true, ["r"]⟩
        [("a.zip", c4Env)]).logs.length = 1 + 3 :=
  ⟨by decide, orchestrator_recovers_per_archive_errors.2.2 c2Tools c4Env [] false
      ⟨true, ["d"]⟩ [] "a.zip" .badZip (by decide),
    by simp,
    (orchestrator_recovers_per_archive_errors.2.1 c2Tools [] false [] ⟨true, ["r"]⟩
      [("a.zip", c4Env)] (by simp)).1,
    (orchestrator_recovers_per_archive_errors.2.1 c2Tools [] false [] ⟨true, ["r"]⟩
      [("a.zip", c4Env)] (by simp)).2⟩

end ExtractionTool
